import Mathlib

/-!
Shallow embedding of the build-orchestration core of `setup.py`
(edgedb-server build script): the embedded-engine build pipeline
(`_compile_postgres`), the grammar compiler (`_compile_parsers`),
the stamp write, and the native extension builder (`build_ext.run`).

Source lines referenced throughout are those of `setup.py`.
-/

/-- The toolchain steps of `_compile_postgres` (setup.py lines 221-247),
in the order the source issues them. -/
inductive PgStep where
  | configure
  | make
  | makeContrib
  | makeInstall
  | makeContribInstall
deriving DecidableEq, Repr

/-- Observable actions of `_compile_postgres` after the source stamp is
computed: removal of the build tree (`shutil.rmtree`, line 216), creation
of the build dir (line 219), a toolchain command run (`subprocess.run`
with `check=True`), and the final stamp write (lines 249-250).
`run` carries the `-j` worker count when the command has one. -/
inductive PgEvent where
  | rmtreeBuild
  | mkdirBuild
  | run (s : PgStep) (jobs : Option Nat)
  | writeStamp (stamp : String)
deriving DecidableEq, Repr

/-- How one invocation of `_compile_postgres` ends. -/
inductive PgOutcome where
  | noRebuild
  | notImplemented (system : String)
  | cmdFailed (s : PgStep)
  | success
deriving DecidableEq, Repr

/-- The keyword flags of `_compile_postgres` (setup.py line 174-176). -/
structure PgFlags where
  force_build : Bool
  fresh_build : Bool
  run_configure : Bool
  build_contrib : Bool
deriving DecidableEq, Repr

/-- `is_outdated = source_stamp != build_stamp` (setup.py line 204);
`build_stamp` is `None` when no stamp file exists (lines 198-202). -/
def is_outdated (sourceStamp : String) (buildStamp : Option String) : Bool :=
  !(buildStamp == some sourceStamp)

/-- The uuid library selected by platform (setup.py lines 207-213):
`e2fs` on Darwin and Linux, no value (NotImplementedError) otherwise. -/
def pgUuidlib (system : String) : Option String :=
  if system == "Darwin" then some "e2fs"
  else if system == "Linux" then some "e2fs"
  else none

/-- `max(os.cpu_count() - 1, 1)`, the `-j` argument of the make steps
(setup.py lines 229 and 236). -/
def makeJobs (cpuCount : Nat) : Nat :=
  max (cpuCount - 1) 1

/-- Runs a list of guarded toolchain steps in order: a step whose guard is
false is skipped; an enabled step runs, and if the oracle `ok` reports a
non-zero exit (`check=True` in the source) the pipeline stops there,
returning the failed step.  The trace records every command that was
actually started, the failed one included. -/
def runSteps (ok : PgStep → Bool) :
    List (Bool × PgStep × Option Nat) → Option PgStep × List PgEvent
  | [] => (none, [])
  | (c, s, j) :: rest =>
    if c then
      if ok s then
        ((runSteps ok rest).1, PgEvent.run s j :: (runSteps ok rest).2)
      else
        (some s, [PgEvent.run s j])
    else
      runSteps ok rest

/-- The guarded step list of `_compile_postgres` (setup.py lines 221-247):
configure when `run_configure or fresh_build or is_outdated`; make,
contrib make, install and contrib install, the contrib ones guarded by
`build_contrib or fresh_build or is_outdated`. -/
def pgSteps (flags : PgFlags) (od : Bool) (jobs : Nat) :
    List (Bool × PgStep × Option Nat) :=
  [ (flags.run_configure || flags.fresh_build || od, PgStep.configure, none),
    (true, PgStep.make, some jobs),
    (flags.build_contrib || flags.fresh_build || od, PgStep.makeContrib, some jobs),
    (true, PgStep.makeInstall, none),
    (flags.build_contrib || flags.fresh_build || od, PgStep.makeContribInstall, none) ]

/-- The filesystem preparation of a rebuild (setup.py lines 215-219):
`shutil.rmtree(postgres_build)` when `fresh_build` and the build tree
exists, then `build_dir.mkdir(parents=True)` when the build dir does
not exist (it no longer exists after the rmtree, since it lives inside
the removed tree). -/
def pgFsEvents (flags : PgFlags) (postgresBuildExists buildDirExists : Bool) :
    List PgEvent :=
  (if flags.fresh_build && postgresBuildExists then [PgEvent.rmtreeBuild] else []) ++
  (if (flags.fresh_build && postgresBuildExists) || !buildDirExists
   then [PgEvent.mkdirBuild] else [])

/-- `_compile_postgres` (setup.py lines 174-250) from the point where
`source_stamp` has been computed.  Inputs: the platform string, the host
cpu count, the computed source stamp, the persisted stamp (`none` when
the stamp file is absent), the four flags, whether the build directory
and its `build` subdirectory exist, and an oracle `ok` giving each
toolchain command's exit status.  Returns the outcome and the trace of
observable actions in source order: no rebuild (lines 204-206) does
nothing; an unsupported platform raises before anything runs
(line 213); otherwise the filesystem preparation, then the pipeline,
then — only on full success — the stamp write (lines 249-250). -/
def compilePostgres (system : String) (cpuCount : Nat) (sourceStamp : String)
    (buildStamp : Option String) (flags : PgFlags)
    (postgresBuildExists buildDirExists : Bool) (ok : PgStep → Bool) :
    PgOutcome × List PgEvent :=
  if is_outdated sourceStamp buildStamp || flags.force_build then
    match pgUuidlib system with
    | none => (PgOutcome.notImplemented system, [])
    | some _ =>
      match runSteps ok (pgSteps flags (is_outdated sourceStamp buildStamp)
          (makeJobs cpuCount)) with
      | (some f, tr) =>
          (PgOutcome.cmdFailed f,
           pgFsEvents flags postgresBuildExists buildDirExists ++ tr)
      | (none, tr) =>
          (PgOutcome.success,
           pgFsEvents flags postgresBuildExists buildDirExists ++ tr ++
             [PgEvent.writeStamp sourceStamp])
  else
    (PgOutcome.noRebuild, [])

/-- Effect of one traced action on the persisted stamp: removing the
build tree removes the stamp file inside it; writing the stamp file sets
it; toolchain commands and mkdir leave it unchanged. -/
def applyEvent (stamp : Option String) : PgEvent → Option String
  | PgEvent.rmtreeBuild => none
  | PgEvent.writeStamp s => some s
  | _ => stamp

/-- The persisted stamp after a trace of actions. -/
def stampAfterTrace (stamp : Option String) (tr : List PgEvent) : Option String :=
  tr.foldl applyEvent stamp

/-! ### The stamp write, at filesystem granularity

`with open(postgres_build_stamp, 'w') as f: f.write(source_stamp)`
(setup.py lines 249-250): opening with mode `'w'` truncates the file,
then the content is written.  Modelled as two separately visible
filesystem micro-steps. -/

/-- A filesystem micro-operation on a single file: truncating open
(mode `'w'`), a content write, or an atomic rename of a fully written
temporary file onto the path. -/
inductive FsMicro where
  | openTrunc
  | write (s : String)
  | renameInto (s : String)
deriving DecidableEq, Repr

/-- The micro-steps the source performs to persist the stamp
(setup.py lines 249-250): truncating open, then one write. -/
def writeStampMicro (stamp : String) : List FsMicro :=
  [FsMicro.openTrunc, FsMicro.write stamp]

/-- File content visible after one micro-step. -/
def applyMicro (content : Option String) : FsMicro → Option String
  | FsMicro.openTrunc => some ""
  | FsMicro.write s => some ((content.getD "") ++ s)
  | FsMicro.renameInto s => some s

/-- The contents a concurrent reader can observe while a micro-step
sequence runs: the content after every prefix of the sequence,
initial state included. -/
def visibleContents (init : Option String) : List FsMicro → List (Option String)
  | [] => [init]
  | m :: rest => init :: visibleContents (applyMicro init m) rest

/-- A write procedure is atomic for `init`/`stamp` when every observable
intermediate content is either the prior content or the complete new
stamp. -/
def atomicFor (init : Option String) (stamp : String) (ms : List FsMicro) : Prop :=
  ∀ c ∈ visibleContents init ms, c = init ∨ c = some stamp

instance (init : Option String) (stamp : String) (ms : List FsMicro) :
    Decidable (atomicFor init stamp ms) := by
  unfold atomicFor; infer_instance

/-! ### `_compile_parsers` (setup.py lines 111-127)

Paths are modelled as lists of path components.  The three grammar
specs are the fixed imports of lines 114-116; for each, the cache
artifact path mirrors the spec directory's root-relative path under
`build_lib` and is named after the final component of the spec's module
name (line 121, `spec.__name__.rpartition('.')[2] + '.pickle'`). -/

/-- A grammar spec: its dotted module name and the root-relative
directory of its source file. -/
structure GrammarSpec where
  module : String
  dir : List String
deriving DecidableEq, Repr

/-- The fixed ordered list of the three grammar specs
(setup.py lines 114-118). -/
def grammarSpecs : List GrammarSpec :=
  [ ⟨"edb.edgeql.parser.grammar.single", ["edb", "edgeql", "parser", "grammar"]⟩,
    ⟨"edb.edgeql.parser.grammar.block", ["edb", "edgeql", "parser", "grammar"]⟩,
    ⟨"edb.edgeql.parser.grammar.sdldocument", ["edb", "edgeql", "parser", "grammar"]⟩ ]

/-- `spec.__name__.rpartition('.')[2] + '.pickle'` (setup.py line 121):
the part of the module name after the last dot, or the whole name when
it has no dot. -/
def pickleName (spec : GrammarSpec) : String :=
  ((spec.module.data.splitOn '.').getLastD []).asString ++ ".pickle"

/-- The root-relative path of the spec's pickle artifact
(`subpath / pickle_name`, setup.py line 122). -/
def picklePath (spec : GrammarSpec) : List String :=
  spec.dir ++ [pickleName spec]

/-- `cache = build_lib / pickle_path` (setup.py line 123). -/
def cachePath (buildLib : List String) (spec : GrammarSpec) : List String :=
  buildLib ++ picklePath spec

/-- `ROOT_PATH / pickle_path`, the mirror-to-source target of the
`inplace` copy (setup.py line 127). -/
def sourceTreePath (root : List String) (spec : GrammarSpec) : List String :=
  root ++ picklePath spec

/-- A filesystem as a map from paths to file contents. -/
def Fs : Type := List String → Option String

/-- Writing one file. -/
def fsWrite (fs : Fs) (p : List String) (content : String) : Fs :=
  fun q => if q = p then some content else fs q

/-- Observable actions of `_compile_parsers`. -/
inductive ParserEvent where
  | mkdirParents (p : List String)
  | writePickle (p : List String)
  | copy2 (src dst : List String)
deriving DecidableEq, Repr

/-- Processing of one grammar spec (setup.py lines 119-127): create the
cache parent directory, generate the pickle at the cache path
(`parsing.Spec(spec, pickleFile=str(cache))`, the table compiler's
output for the spec being `gen spec`), and in inplace mode copy the
cache file back to the matching source-tree path (`shutil.copy2`). -/
def compileOneSpec (buildLib root : List String) (inplace : Bool)
    (gen : GrammarSpec → String) (st : Fs × List ParserEvent)
    (spec : GrammarSpec) : Fs × List ParserEvent :=
  if inplace then
    (fsWrite (fsWrite st.1 (cachePath buildLib spec) (gen spec))
       (sourceTreePath root spec)
       ((fsWrite st.1 (cachePath buildLib spec) (gen spec)
           (cachePath buildLib spec)).getD ""),
     st.2 ++ [ParserEvent.mkdirParents (buildLib ++ spec.dir),
              ParserEvent.writePickle (cachePath buildLib spec),
              ParserEvent.copy2 (cachePath buildLib spec) (sourceTreePath root spec)])
  else
    (fsWrite st.1 (cachePath buildLib spec) (gen spec),
     st.2 ++ [ParserEvent.mkdirParents (buildLib ++ spec.dir),
              ParserEvent.writePickle (cachePath buildLib spec)])

/-- `_compile_parsers(build_lib, inplace)` (setup.py lines 111-127):
processes the three grammar specs in order, unconditionally. -/
def compileParsers (buildLib root : List String) (inplace : Bool)
    (gen : GrammarSpec → String) (fs : Fs) : Fs × List ParserEvent :=
  grammarSpecs.foldl (compileOneSpec buildLib root inplace gen) (fs, [])

/-! ### `build_ext.run` (setup.py lines 484-520)

The Rust-extension part of the overridden `run`: when Rust extensions
are declared and the build is not in place, for each extension the
final (in-place) target path is unlinked if a file exists there and its
parent directory created, then the Rust build runs, then each freshly
built artifact is copied from its build location to the target path;
finally the inherited `run` handles the Cython extensions. -/

/-- Observable actions of `build_ext.run`. -/
inductive BuildExtEvent where
  | checkRust
  | unlink (p : List String)
  | mkdirParents (p : List String)
  | buildRust
  | copyfile (src dst : List String)
  | superRun
deriving DecidableEq, Repr

/-- The per-extension planning loop body (setup.py lines 492-510):
record `(dylib_path, target_path)` in the copy list, unlink the target
if it exists, create its parent. -/
def planExt (targetPath : String → List String) (existsAt : List String → Bool)
    (ext : String) : List BuildExtEvent :=
  (if existsAt (targetPath ext) then [BuildExtEvent.unlink (targetPath ext)] else []) ++
  [BuildExtEvent.mkdirParents ((targetPath ext).dropLast)]

/-- `build_ext.run` (setup.py lines 484-520) as an event trace.
`exts` are the declared Rust extension names; `dylibPath`/`targetPath`
give `get_ext_fullpath` with `inplace` off and on respectively;
`existsAt` is the filesystem state at entry. -/
def buildExtRun (exts : List String) (inplace : Bool)
    (dylibPath targetPath : String → List String)
    (existsAt : List String → Bool) : List BuildExtEvent :=
  (if exts.isEmpty then []
   else
     [BuildExtEvent.checkRust] ++
     (if inplace then [] else exts.flatMap (planExt targetPath existsAt)) ++
     [BuildExtEvent.buildRust] ++
     (if inplace then []
      else exts.map (fun e => BuildExtEvent.copyfile (dylibPath e) (targetPath e)))) ++
  [BuildExtEvent.superRun]

/-! ### Helper lemmas about the pipeline runner -/

theorem runSteps_events (ok : PgStep → Bool) :
    ∀ (l : List (Bool × PgStep × Option Nat)), ∀ e ∈ (runSteps ok l).2,
      ∃ s j, e = PgEvent.run s j
  | [] => by simp [runSteps]
  | (c, s, j) :: rest => by
    intro e he
    simp only [runSteps] at he
    by_cases hc : c = true
    · rw [if_pos hc] at he
      by_cases hs : ok s = true
      · rw [if_pos hs] at he
        rcases List.mem_cons.mp he with rfl | he'
        · exact ⟨s, j, rfl⟩
        · exact runSteps_events ok rest e he'
      · rw [if_neg hs] at he
        rcases List.mem_singleton.mp he with rfl
        exact ⟨s, j, rfl⟩
    · rw [if_neg hc] at he
      exact runSteps_events ok rest e he

theorem runSteps_mem (ok : PgStep → Bool) :
    ∀ (l : List (Bool × PgStep × Option Nat)) (s : PgStep) (j : Option Nat),
      PgEvent.run s j ∈ (runSteps ok l).2 → (true, s, j) ∈ l
  | [] => by simp [runSteps]
  | (c, s, j) :: rest => by
    intro s' j' he
    simp only [runSteps] at he
    by_cases hc : c = true
    · rw [if_pos hc] at he
      by_cases hs : ok s = true
      · rw [if_pos hs] at he
        rcases List.mem_cons.mp he with heq | he'
        · cases heq
          exact hc ▸ List.mem_cons_self _ _
        · exact List.mem_cons_of_mem _ (runSteps_mem ok rest s' j' he')
      · rw [if_neg hs] at he
        rcases List.mem_singleton.mp he with heq
        cases heq
        exact hc ▸ List.mem_cons_self _ _
    · rw [if_neg hc] at he
      exact List.mem_cons_of_mem _ (runSteps_mem ok rest s' j' he)

theorem runSteps_fail_shape (ok : PgStep → Bool) :
    ∀ (l : List (Bool × PgStep × Option Nat)) (f : PgStep) (tr : List PgEvent),
      runSteps ok l = (some f, tr) →
      ok f = false ∧ ∃ tr0 j, tr = tr0 ++ [PgEvent.run f j] ∧
        ∀ s j', PgEvent.run s j' ∈ tr0 → ok s = true
  | [] => by simp [runSteps]
  | (c, s, j) :: rest => by
    intro f tr h
    simp only [runSteps] at h
    by_cases hc : c = true
    · rw [if_pos hc] at h
      by_cases hs : ok s = true
      · rw [if_pos hs] at h
        cases htr : runSteps ok rest with
        | mk o2 tr2 =>
          rw [htr] at h
          cases h
          obtain ⟨hokf, tr0, j0, htr2, hall⟩ :=
            runSteps_fail_shape ok rest f tr2 (by rw [htr])
          refine ⟨hokf, PgEvent.run s j :: tr0, j0, by simp [htr2], ?_⟩
          intro s' j' hm
          rcases List.mem_cons.mp hm with heq | hm'
          · cases heq; exact hs
          · exact hall s' j' hm'
      · rw [if_neg hs] at h
        cases h
        exact ⟨Bool.not_eq_true _ ▸ by simpa using hs, [], j, by simp,
          by intro s' j' hm; simp at hm⟩
    · rw [if_neg hc] at h
      exact runSteps_fail_shape ok rest f tr h

theorem runSteps_head (ok : PgStep → Bool) (s : PgStep) (j : Option Nat)
    (rest : List (Bool × PgStep × Option Nat)) :
    ((runSteps ok ((true, s, j) :: rest)).2).head? = some (PgEvent.run s j) := by
  simp only [runSteps, if_pos rfl]
  by_cases hs : ok s = true
  · rw [if_pos hs]; rfl
  · rw [if_neg hs]; rfl

theorem pgFsEvents_mem (flags : PgFlags) (pbe bde : Bool) :
    ∀ e ∈ pgFsEvents flags pbe bde,
      e = PgEvent.rmtreeBuild ∨ e = PgEvent.mkdirBuild := by
  intro e he
  simp only [pgFsEvents, List.mem_append] at he
  rcases he with he | he <;> (split at he <;> simp_all)

theorem stampAfterTrace_append (st : Option String) (l1 l2 : List PgEvent) :
    stampAfterTrace st (l1 ++ l2) = stampAfterTrace (stampAfterTrace st l1) l2 := by
  simp [stampAfterTrace, List.foldl_append]

theorem stampAfterTrace_runs (st : Option String) :
    ∀ (l : List PgEvent), (∀ e ∈ l, ∃ s j, e = PgEvent.run s j) →
      stampAfterTrace st l = st
  | [] => by intro _; rfl
  | e :: rest => by
    intro h
    obtain ⟨s, j, rfl⟩ := h e (List.mem_cons_self _ _)
    have : stampAfterTrace st (PgEvent.run s j :: rest) = stampAfterTrace st rest := rfl
    rw [this]
    exact stampAfterTrace_runs st rest (fun e' he' => h e' (List.mem_cons_of_mem _ he'))

theorem stampAfterTrace_fsEvents (st : Option String) (flags : PgFlags)
    (pbe bde : Bool) :
    stampAfterTrace st (pgFsEvents flags pbe bde) =
      if flags.fresh_build && pbe then none else st := by
  simp only [pgFsEvents]
  by_cases h : (flags.fresh_build && pbe) = true
  · rw [if_pos h, if_pos h]
    by_cases hb : ((flags.fresh_build && pbe) || !bde) = true
    · rw [if_pos hb]; rfl
    · rw [if_neg hb]; rfl
  · rw [if_neg h, if_neg h]
    by_cases hb : ((flags.fresh_build && pbe) || !bde) = true
    · rw [if_pos hb]; rfl
    · rw [if_neg hb]; rfl

/-- Case analysis of `compilePostgres`: an invocation either skips the
rebuild, stops at the platform check, fails at some pipeline step, or
succeeds and writes the stamp last. -/
theorem compilePostgres_cases (system : String) (cpuCount : Nat)
    (sourceStamp : String) (buildStamp : Option String) (flags : PgFlags)
    (pbe bde : Bool) (ok : PgStep → Bool) :
    (¬ (is_outdated sourceStamp buildStamp || flags.force_build) = true ∧
      compilePostgres system cpuCount sourceStamp buildStamp flags pbe bde ok =
        (PgOutcome.noRebuild, [])) ∨
    ((is_outdated sourceStamp buildStamp || flags.force_build) = true ∧
      pgUuidlib system = none ∧
      compilePostgres system cpuCount sourceStamp buildStamp flags pbe bde ok =
        (PgOutcome.notImplemented system, [])) ∨
    ((is_outdated sourceStamp buildStamp || flags.force_build) = true ∧
      ∃ f tr, runSteps ok (pgSteps flags (is_outdated sourceStamp buildStamp)
          (makeJobs cpuCount)) = (some f, tr) ∧
        compilePostgres system cpuCount sourceStamp buildStamp flags pbe bde ok =
          (PgOutcome.cmdFailed f, pgFsEvents flags pbe bde ++ tr)) ∨
    ((is_outdated sourceStamp buildStamp || flags.force_build) = true ∧
      ∃ tr, runSteps ok (pgSteps flags (is_outdated sourceStamp buildStamp)
          (makeJobs cpuCount)) = (none, tr) ∧
        compilePostgres system cpuCount sourceStamp buildStamp flags pbe bde ok =
          (PgOutcome.success,
           pgFsEvents flags pbe bde ++ tr ++ [PgEvent.writeStamp sourceStamp])) := by
  by_cases hb : (is_outdated sourceStamp buildStamp || flags.force_build) = true
  · cases hu : pgUuidlib system with
    | none =>
      refine Or.inr (Or.inl ⟨hb, rfl, ?_⟩)
      unfold compilePostgres
      rw [if_pos hb, hu]
    | some u =>
      cases hrs : runSteps ok (pgSteps flags (is_outdated sourceStamp buildStamp)
          (makeJobs cpuCount)) with
      | mk o tr =>
        cases o with
        | some f =>
          refine Or.inr (Or.inr (Or.inl ⟨hb, f, tr, rfl, ?_⟩))
          unfold compilePostgres
          rw [if_pos hb, hu, hrs]
        | none =>
          refine Or.inr (Or.inr (Or.inr ⟨hb, tr, rfl, ?_⟩))
          unfold compilePostgres
          rw [if_pos hb, hu, hrs]
  · refine Or.inl ⟨hb, ?_⟩
    unfold compilePostgres
    rw [if_neg hb]

/-- A toolchain command appearing in the trace was an enabled entry of the
step list. -/
theorem compilePostgres_run_mem {system : String} {cpuCount : Nat}
    {sourceStamp : String} {buildStamp : Option String} {flags : PgFlags}
    {pbe bde : Bool} {ok : PgStep → Bool} {s : PgStep} {j : Option Nat}
    (h : PgEvent.run s j ∈
      (compilePostgres system cpuCount sourceStamp buildStamp flags pbe bde ok).2) :
    (true, s, j) ∈
      pgSteps flags (is_outdated sourceStamp buildStamp) (makeJobs cpuCount) := by
  rcases compilePostgres_cases system cpuCount sourceStamp buildStamp flags pbe bde ok
    with ⟨_, hc⟩ | ⟨_, _, hc⟩ | ⟨_, f, tr, hrs, hc⟩ | ⟨_, tr, hrs, hc⟩
  · rw [hc] at h; simp at h
  · rw [hc] at h; simp at h
  · rw [hc] at h
    simp only [List.mem_append] at h
    rcases h with h | h
    · rcases pgFsEvents_mem flags pbe bde _ h with h' | h' <;> exact PgEvent.noConfusion h'
    · exact runSteps_mem ok _ s j (by rw [hrs]; exact h)
  · rw [hc] at h
    simp only [List.mem_append] at h
    rcases h with (h | h) | h
    · rcases pgFsEvents_mem flags pbe bde _ h with h' | h' <;> exact PgEvent.noConfusion h'
    · exact runSteps_mem ok _ s j (by rw [hrs]; exact h)
    · simp at h

/-! ### Claim theorems -/

/-- C1: staleness is binary and decided solely by stamp equality:
`is_outdated` is true when no persisted stamp exists, true when the
persisted stamp differs in any way from the computed source stamp, and
false when the two are equal. -/
theorem staleness_by_stamp_equality (s : String) (b : Option String) :
    (is_outdated s none = true) ∧
    (b ≠ some s → is_outdated s b = true) ∧
    (is_outdated s (some s) = false) := by
  refine ⟨rfl, fun h => ?_, by simp [is_outdated]⟩
  simpa [is_outdated] using h

theorem staleness_by_stamp_equality_witness :
    is_outdated "-abc123" (some "+abc123") = true :=
  (staleness_by_stamp_equality "-abc123" (some "+abc123")).2.1 (by decide)

/-- C8: every worker-count argument passed to a make invocation in the
trace equals `max(cpu_count - 1, 1)`, which is `cpu_count - 1` for more
than one cpu, `1` otherwise, and always at least one. -/
theorem make_worker_count (system : String) (cpuCount : Nat) (sourceStamp : String)
    (buildStamp : Option String) (flags : PgFlags) (pbe bde : Bool)
    (ok : PgStep → Bool) (s : PgStep) (jv : Nat) :
    (PgEvent.run s (some jv) ∈
        (compilePostgres system cpuCount sourceStamp buildStamp flags pbe bde ok).2 →
      jv = makeJobs cpuCount) ∧
    (1 < cpuCount → makeJobs cpuCount = cpuCount - 1) ∧
    (cpuCount ≤ 1 → makeJobs cpuCount = 1) ∧
    1 ≤ makeJobs cpuCount := by
  refine ⟨?_, ?_, ?_, Nat.le_max_right _ _⟩
  · intro h
    have hm := compilePostgres_run_mem h
    simp [pgSteps, Prod.ext_iff] at hm
    tauto
  · intro h
    rw [makeJobs, Nat.max_eq_left (by omega)]
  · intro h
    rw [makeJobs, Nat.max_eq_right (by omega)]

theorem make_worker_count_witness :
    (7 : Nat) = makeJobs 8 :=
  (make_worker_count "Linux" 8 "-abc" none ⟨false, false, false, false⟩ false false
      (fun _ => true) PgStep.make 7).1 (by decide)

/-- C9: with an up-to-date stamp and no forced build, `_compile_postgres`
performs no filesystem change and runs no toolchain command on any
platform; when a rebuild is needed on a system that is neither Linux nor
Darwin, it stops with `NotImplementedError` naming the system, before any
command runs and before any file is touched. -/
theorem no_rebuild_or_unsupported (system : String) (cpuCount : Nat)
    (sourceStamp : String) (buildStamp : Option String) (flags : PgFlags)
    (pbe bde : Bool) (ok : PgStep → Bool) :
    (buildStamp = some sourceStamp → flags.force_build = false →
      compilePostgres system cpuCount sourceStamp buildStamp flags pbe bde ok =
        (PgOutcome.noRebuild, [])) ∧
    ((is_outdated sourceStamp buildStamp || flags.force_build) = true →
      system ≠ "Linux" → system ≠ "Darwin" →
      compilePostgres system cpuCount sourceStamp buildStamp flags pbe bde ok =
        (PgOutcome.notImplemented system, [])) := by
  constructor
  · intro hb hf
    unfold compilePostgres
    rw [if_neg (by subst hb; simp [is_outdated, hf])]
  · intro hreb hL hD
    unfold compilePostgres
    rw [if_pos hreb, show pgUuidlib system = none by
      simp [pgUuidlib, beq_iff_eq, hL, hD]]

theorem no_rebuild_or_unsupported_witness :
    compilePostgres "Windows" 4 "-abc123" (some "-abc123")
      ⟨false, false, true, true⟩ true true (fun _ => true) =
      (PgOutcome.noRebuild, []) :=
  (no_rebuild_or_unsupported "Windows" 4 "-abc123" (some "-abc123")
      ⟨false, false, true, true⟩ true true (fun _ => true)).1 rfl rfl

theorem pgSteps_configure_head (flags : PgFlags) (od : Bool) (jobs : Nat)
    (ok : PgStep → Bool)
    (hg : (flags.run_configure || flags.fresh_build || od) = true) :
    ((runSteps ok (pgSteps flags od jobs)).2).head? =
      some (PgEvent.run PgStep.configure none) := by
  unfold pgSteps
  rw [hg]
  exact runSteps_head ok PgStep.configure none _

/-- C7: whenever a rebuild is triggered on a supported platform, the
configure step runs if and only if `run_configure` is set, `fresh_build`
is set, or the target is outdated — so a fresh rebuild reruns configure
even with `run_configure` off. -/
theorem configure_run_condition (system : String) (cpuCount : Nat)
    (sourceStamp : String) (buildStamp : Option String) (flags : PgFlags)
    (pbe bde : Bool) (ok : PgStep → Bool)
    (hsys : system = "Linux" ∨ system = "Darwin")
    (hreb : (is_outdated sourceStamp buildStamp || flags.force_build) = true) :
    (∃ j, PgEvent.run PgStep.configure j ∈
        (compilePostgres system cpuCount sourceStamp buildStamp flags pbe bde ok).2) ↔
      (flags.run_configure || flags.fresh_build ||
        is_outdated sourceStamp buildStamp) = true := by
  have hu : pgUuidlib system ≠ none := by
    rcases hsys with rfl | rfl <;> simp [pgUuidlib]
  constructor
  · rintro ⟨j, hj⟩
    have hm := compilePostgres_run_mem hj
    simp [pgSteps, Prod.ext_iff] at hm
    simp only [Bool.or_eq_true]
    tauto
  · intro hg
    rcases compilePostgres_cases system cpuCount sourceStamp buildStamp flags pbe bde ok
      with ⟨hnb, _⟩ | ⟨_, hnone, _⟩ | ⟨_, f, tr, hrs, hc⟩ | ⟨_, tr, hrs, hc⟩
    · exact absurd hreb hnb
    · exact absurd hnone hu
    · refine ⟨none, ?_⟩
      rw [hc]
      have hh : tr.head? = some (PgEvent.run PgStep.configure none) := by
        have hph := pgSteps_configure_head flags (is_outdated sourceStamp buildStamp)
          (makeJobs cpuCount) ok hg
        rwa [hrs] at hph
      exact List.mem_append_right _ (List.mem_of_mem_head? (Option.mem_def.mpr hh))
    · refine ⟨none, ?_⟩
      rw [hc]
      have hh : tr.head? = some (PgEvent.run PgStep.configure none) := by
        have hph := pgSteps_configure_head flags (is_outdated sourceStamp buildStamp)
          (makeJobs cpuCount) ok hg
        rwa [hrs] at hph
      exact List.mem_append_left _
        (List.mem_append_right _ (List.mem_of_mem_head? (Option.mem_def.mpr hh)))

theorem configure_run_condition_witness :
    ∃ j, PgEvent.run PgStep.configure j ∈
      (compilePostgres "Linux" 4 "-abc123" (some "-abc123")
        ⟨true, true, false, false⟩ true true (fun _ => true)).2 :=
  (configure_run_condition "Linux" 4 "-abc123" (some "-abc123")
      ⟨true, true, false, false⟩ true true (fun _ => true)
      (Or.inl rfl) (by decide)).mpr (by decide)

/-- C2: the stamp is persisted exactly when the whole sub-build succeeds,
and then as the last action of the invocation; after any failed attempt
the persisted stamp is absent or unchanged, so a stale target is still
stale on the next invocation. -/
theorem stamp_written_only_on_success (system : String) (cpuCount : Nat)
    (sourceStamp : String) (buildStamp : Option String) (flags : PgFlags)
    (pbe bde : Bool) (ok : PgStep → Bool) (o : PgOutcome) (tr : List PgEvent)
    (h : compilePostgres system cpuCount sourceStamp buildStamp flags pbe bde ok =
      (o, tr)) :
    ((∃ st, PgEvent.writeStamp st ∈ tr) ↔ o = PgOutcome.success) ∧
    (o = PgOutcome.success → tr.getLast? = some (PgEvent.writeStamp sourceStamp)) ∧
    (∀ f, o = PgOutcome.cmdFailed f → is_outdated sourceStamp buildStamp = true →
      is_outdated sourceStamp (stampAfterTrace buildStamp tr) = true) := by
  rcases compilePostgres_cases system cpuCount sourceStamp buildStamp flags pbe bde ok
    with ⟨_, hc⟩ | ⟨_, _, hc⟩ | ⟨_, f, tr', hrs, hc⟩ | ⟨_, tr', hrs, hc⟩ <;>
    rw [h] at hc <;> injection hc with ho htr <;> subst ho <;> subst htr
  · exact ⟨by simp, by simp, by simp⟩
  · exact ⟨by simp, by simp, by simp⟩
  · refine ⟨?_, by simp, ?_⟩
    · constructor
      · rintro ⟨st, hm⟩
        rcases List.mem_append.mp hm with hm' | hm'
        · rcases pgFsEvents_mem flags pbe bde _ hm' with h' | h' <;>
            exact PgEvent.noConfusion h'
        · obtain ⟨s, j, heq⟩ := runSteps_events ok _ _ (by rw [hrs]; exact hm')
          exact PgEvent.noConfusion heq
      · intro hsucc
        exact PgOutcome.noConfusion hsucc
    · intro f' _ hod
      rw [stampAfterTrace_append,
        stampAfterTrace_runs _ tr' (fun e he => runSteps_events ok _ e
          (by rw [hrs]; exact he)),
        stampAfterTrace_fsEvents]
      by_cases hfp : (flags.fresh_build && pbe) = true
      · rw [if_pos hfp]; rfl
      · rw [if_neg hfp]; exact hod
  · refine ⟨⟨fun _ => rfl, fun _ => ⟨sourceStamp, by simp⟩⟩, ?_, by simp⟩
    intro _
    rw [List.getLast?_concat]

theorem stamp_written_only_on_success_witness :
    is_outdated "-abc123"
      (stampAfterTrace none
        [PgEvent.mkdirBuild, PgEvent.run PgStep.configure none,
         PgEvent.run PgStep.make (some 1)]) = true :=
  (stamp_written_only_on_success "Linux" 2 "-abc123" none
      ⟨false, false, false, false⟩ false false (fun s => s != PgStep.make)
      (PgOutcome.cmdFailed PgStep.make)
      [PgEvent.mkdirBuild, PgEvent.run PgStep.configure none,
       PgEvent.run PgStep.make (some 1)]
      (by decide)).2.2 PgStep.make rfl (by decide)

/-- C3: the pipeline is fail-fast: when an invocation ends with a failed
command, that command's exit status was non-zero, its run is the last
event of the trace (no later command, no stamp write), and every command
started before it had succeeded. -/
theorem pipeline_fail_fast (system : String) (cpuCount : Nat)
    (sourceStamp : String) (buildStamp : Option String) (flags : PgFlags)
    (pbe bde : Bool) (ok : PgStep → Bool) (f : PgStep) (tr : List PgEvent)
    (h : compilePostgres system cpuCount sourceStamp buildStamp flags pbe bde ok =
      (PgOutcome.cmdFailed f, tr)) :
    ok f = false ∧ ∃ tr0 j, tr = tr0 ++ [PgEvent.run f j] ∧
      ∀ s j', PgEvent.run s j' ∈ tr0 → ok s = true := by
  rcases compilePostgres_cases system cpuCount sourceStamp buildStamp flags pbe bde ok
    with ⟨_, hc⟩ | ⟨_, _, hc⟩ | ⟨_, f', tr', hrs, hc⟩ | ⟨_, tr', hrs, hc⟩ <;>
    rw [h] at hc <;> injection hc with ho htr
  · exact PgOutcome.noConfusion ho
  · exact PgOutcome.noConfusion ho
  · injection ho with hf
    subst hf
    subst htr
    obtain ⟨hok, tr0, j, htr', hall⟩ := runSteps_fail_shape ok _ f tr' hrs
    subst htr'
    refine ⟨hok, pgFsEvents flags pbe bde ++ tr0, j, by rw [List.append_assoc], ?_⟩
    intro s j' hm
    rcases List.mem_append.mp hm with hm' | hm'
    · rcases pgFsEvents_mem flags pbe bde _ hm' with h' | h' <;>
        exact PgEvent.noConfusion h'
    · exact hall s j' hm'
  · exact PgOutcome.noConfusion ho

theorem pipeline_fail_fast_witness :
    ∃ tr0 j,
      ([PgEvent.mkdirBuild, PgEvent.run PgStep.configure none,
        PgEvent.run PgStep.make (some 1)] : List PgEvent) =
        tr0 ++ [PgEvent.run PgStep.make j] ∧
      ∀ s j', PgEvent.run s j' ∈ tr0 → (fun s => s != PgStep.make) s = true :=
  (pipeline_fail_fast "Linux" 2 "-abc123" none ⟨false, false, false, false⟩
      false false (fun s => s != PgStep.make) PgStep.make
      [PgEvent.mkdirBuild, PgEvent.run PgStep.configure none,
       PgEvent.run PgStep.make (some 1)]
      (by decide)).2

/-- C10: when `fresh_build` is set and a rebuild is triggered on a
supported platform, the previous build tree — stamp file included — is
removed before any toolchain command runs; consequently, if the build
then fails at any step, no stamp file remains and the next invocation
treats the target as stale. -/
theorem fresh_build_removes_stamp (system : String) (cpuCount : Nat)
    (sourceStamp : String) (buildStamp : Option String) (flags : PgFlags)
    (pbe bde : Bool) (ok : PgStep → Bool) (o : PgOutcome) (tr : List PgEvent)
    (hfresh : flags.fresh_build = true)
    (hsys : system = "Linux" ∨ system = "Darwin")
    (hreb : (is_outdated sourceStamp buildStamp || flags.force_build) = true)
    (hcons : buildStamp ≠ none → pbe = true)
    (h : compilePostgres system cpuCount sourceStamp buildStamp flags pbe bde ok =
      (o, tr)) :
    (pbe = true → tr.head? = some PgEvent.rmtreeBuild) ∧
    (∀ f, o = PgOutcome.cmdFailed f →
      stampAfterTrace buildStamp tr = none ∧
      is_outdated sourceStamp (stampAfterTrace buildStamp tr) = true) := by
  have hu : pgUuidlib system ≠ none := by
    rcases hsys with rfl | rfl <;> simp [pgUuidlib]
  rcases compilePostgres_cases system cpuCount sourceStamp buildStamp flags pbe bde ok
    with ⟨hnb, _⟩ | ⟨_, hnone, _⟩ | ⟨_, f', tr', hrs, hc⟩ | ⟨_, tr', hrs, hc⟩
  · exact absurd hreb hnb
  · exact absurd hnone hu
  · rw [h] at hc
    injection hc with ho htr
    subst ho
    subst htr
    constructor
    · intro hpbe
      simp [pgFsEvents, hfresh, hpbe]
    · intro f hf
      have hstamp : stampAfterTrace buildStamp (pgFsEvents flags pbe bde ++ tr') =
          none := by
        rw [stampAfterTrace_append,
          stampAfterTrace_runs _ tr' (fun e he => runSteps_events ok _ e
            (by rw [hrs]; exact he)),
          stampAfterTrace_fsEvents]
        by_cases hpbe : pbe = true
        · rw [if_pos (by rw [hfresh, hpbe]; rfl)]
        · have hbs : buildStamp = none := by
            by_contra hne
            exact hpbe (hcons hne)
          rw [hbs]
          split <;> rfl
      exact ⟨hstamp, by rw [hstamp]; rfl⟩
  · rw [h] at hc
    injection hc with ho htr
    subst ho
    subst htr
    constructor
    · intro hpbe
      simp [pgFsEvents, hfresh, hpbe]
    · intro f hf
      exact PgOutcome.noConfusion hf

theorem fresh_build_removes_stamp_witness :
    stampAfterTrace (some "+old")
      [PgEvent.rmtreeBuild, PgEvent.mkdirBuild, PgEvent.run PgStep.configure none,
       PgEvent.run PgStep.make (some 1)] = none ∧
    is_outdated "-abc123"
      (stampAfterTrace (some "+old")
        [PgEvent.rmtreeBuild, PgEvent.mkdirBuild, PgEvent.run PgStep.configure none,
         PgEvent.run PgStep.make (some 1)]) = true :=
  (fresh_build_removes_stamp "Linux" 2 "-abc123" (some "+old")
      ⟨false, true, false, false⟩ true true (fun s => s != PgStep.make)
      (PgOutcome.cmdFailed PgStep.make)
      [PgEvent.rmtreeBuild, PgEvent.mkdirBuild, PgEvent.run PgStep.configure none,
       PgEvent.run PgStep.make (some 1)]
      rfl (Or.inl rfl) (by decide) (fun _ => rfl) (by decide)).2
    PgStep.make rfl

theorem planExt_events (targetPath : String → List String)
    (existsAt : List String → Bool) (x : String) :
    ∀ ev ∈ planExt targetPath existsAt x,
      ev = BuildExtEvent.unlink (targetPath x) ∨
      ev = BuildExtEvent.mkdirParents ((targetPath x).dropLast) := by
  intro ev hev
  simp only [planExt, List.mem_append] at hev
  rcases hev with hev | hev
  · split at hev <;> simp_all
  · simp_all

/-- C4: for every Rust extension unit in a not-in-place build whose final
in-place target path is already occupied, `build_ext.run` unlinks that
path before the Rust build step runs, and only after the build copies the
freshly built artifact from the build location onto the target path: the
old file is removed, never overwritten in place. -/
theorem rust_artifact_replacement (exts : List String) (inplace : Bool)
    (dylibPath targetPath : String → List String)
    (existsAt : List String → Bool) (e : String)
    (he : e ∈ exts) (hip : inplace = false)
    (hex : existsAt (targetPath e) = true) :
    ∃ A B, buildExtRun exts inplace dylibPath targetPath existsAt =
        A ++ BuildExtEvent.buildRust :: B ∧
      BuildExtEvent.unlink (targetPath e) ∈ A ∧
      BuildExtEvent.copyfile (dylibPath e) (targetPath e) ∈ B ∧
      BuildExtEvent.buildRust ∉ A := by
  subst hip
  have hne : exts.isEmpty = false := by
    cases exts
    · simp at he
    · rfl
  refine ⟨BuildExtEvent.checkRust :: exts.flatMap (planExt targetPath existsAt),
    exts.map (fun x => BuildExtEvent.copyfile (dylibPath x) (targetPath x)) ++
      [BuildExtEvent.superRun], ?_, ?_, ?_, ?_⟩
  · simp [buildExtRun, hne]
  · exact List.mem_cons_of_mem _
      (List.mem_flatMap.mpr ⟨e, he, by simp [planExt, hex]⟩)
  · exact List.mem_append_left _ (List.mem_map.mpr ⟨e, he, rfl⟩)
  · intro hb
    rcases List.mem_cons.mp hb with h' | h'
    · exact BuildExtEvent.noConfusion h'
    · obtain ⟨x, _, hx⟩ := List.mem_flatMap.mp h'
      rcases planExt_events targetPath existsAt x _ hx with h'' | h'' <;>
        exact BuildExtEvent.noConfusion h''

theorem rust_artifact_replacement_witness :
    ∃ A B, buildExtRun ["edgeql_rust", "graphql_rewrite"] false
        (fun e => ["build", "lib", e]) (fun e => ["edb", e]) (fun _ => true) =
        A ++ BuildExtEvent.buildRust :: B ∧
      BuildExtEvent.unlink ["edb", "edgeql_rust"] ∈ A ∧
      BuildExtEvent.copyfile ["build", "lib", "edgeql_rust"] ["edb", "edgeql_rust"] ∈ B ∧
      BuildExtEvent.buildRust ∉ A :=
  rust_artifact_replacement ["edgeql_rust", "graphql_rewrite"] false
    (fun e => ["build", "lib", e]) (fun e => ["edb", e]) (fun _ => true)
    "edgeql_rust" (by decide) rfl rfl

/-- C5 counterexample: the stamp write the source performs (truncating
open, then a write) is not atomic: with a previously persisted stamp
`"+abc123"` being replaced by `"-abc123"`, a concurrent reader can
observe the truncated (empty) intermediate state, which is neither the
old nor the new stamp. -/
theorem stamp_write_not_atomic :
    ¬ atomicFor (some "+abc123") "-abc123" (writeStampMicro "-abc123") := by
  decide

/-- C5 amended: the stamp write is a plain truncating write — `open` in
mode `'w'` followed by one `write`, with no temporary file and rename —
so the reader-visible contents are exactly the prior content, then the
empty truncated file, then the complete stamp; the final content is the
full stamp, but the intermediate truncated state is visible. -/
theorem stamp_write_truncate_then_write (init : Option String) (stamp : String) :
    visibleContents init (writeStampMicro stamp) = [init, some "", some stamp] := by
  show [init, some "", some ("" ++ stamp)] = [init, some "", some stamp]
  rw [String.empty_append]

/-! ### Lemmas for the grammar compiler -/

theorem fsWrite_self (fs : Fs) (p : List String) (c : String) :
    fsWrite fs p c p = some c := by
  simp [fsWrite]

theorem fsWrite_other (fs : Fs) (p : List String) (c : String) (q : List String)
    (h : q ≠ p) : fsWrite fs p c q = fs q := by
  simp [fsWrite, h]

theorem append_singleton_ne {α : Type} {p q : List α} {x y : α} (h : x ≠ y) :
    p ++ [x] ≠ q ++ [y] := by
  intro heq
  have hx : (p ++ [x]).getLast? = some x := List.getLast?_concat _
  rw [heq, List.getLast?_concat] at hx
  exact h (Option.some.inj hx).symm

theorem cachePath_eq (buildLib : List String) (spec : GrammarSpec) :
    cachePath buildLib spec = (buildLib ++ spec.dir) ++ [pickleName spec] := by
  unfold cachePath picklePath
  rw [List.append_assoc]

theorem sourceTreePath_eq (root : List String) (spec : GrammarSpec) :
    sourceTreePath root spec = (root ++ spec.dir) ++ [pickleName spec] := by
  unfold sourceTreePath picklePath
  rw [List.append_assoc]

theorem cachePath_ne_cachePath {a b : List String} {s t : GrammarSpec}
    (h : pickleName s ≠ pickleName t) : cachePath a s ≠ cachePath b t := by
  rw [cachePath_eq, cachePath_eq]
  exact append_singleton_ne h

theorem cachePath_ne_sourceTreePath {a b : List String} {s t : GrammarSpec}
    (h : pickleName s ≠ pickleName t) : cachePath a s ≠ sourceTreePath b t := by
  rw [cachePath_eq, sourceTreePath_eq]
  exact append_singleton_ne h

theorem sourceTreePath_ne_cachePath {a b : List String} {s t : GrammarSpec}
    (h : pickleName s ≠ pickleName t) : sourceTreePath a s ≠ cachePath b t := by
  rw [sourceTreePath_eq, cachePath_eq]
  exact append_singleton_ne h

theorem sourceTreePath_ne_sourceTreePath {a b : List String} {s t : GrammarSpec}
    (h : pickleName s ≠ pickleName t) : sourceTreePath a s ≠ sourceTreePath b t := by
  rw [sourceTreePath_eq, sourceTreePath_eq]
  exact append_singleton_ne h

theorem compileOneSpec_self (buildLib root : List String) (inplace : Bool)
    (gen : GrammarSpec → String) (st : Fs × List ParserEvent) (spec : GrammarSpec) :
    (compileOneSpec buildLib root inplace gen st spec).1 (cachePath buildLib spec) =
      some (gen spec) ∧
    (inplace = true →
      (compileOneSpec buildLib root inplace gen st spec).1
        (sourceTreePath root spec) = some (gen spec)) := by
  by_cases hip : inplace = true
  · unfold compileOneSpec
    rw [if_pos hip]
    refine ⟨?_, fun _ => ?_⟩ <;> simp [fsWrite]
  · unfold compileOneSpec
    rw [if_neg hip]
    exact ⟨fsWrite_self _ _ _, fun h => absurd h hip⟩

theorem compileOneSpec_other (buildLib root : List String) (inplace : Bool)
    (gen : GrammarSpec → String) (st : Fs × List ParserEvent) (spec : GrammarSpec)
    {p : List String} (hp1 : p ≠ cachePath buildLib spec)
    (hp2 : p ≠ sourceTreePath root spec) :
    (compileOneSpec buildLib root inplace gen st spec).1 p = st.1 p := by
  by_cases hip : inplace = true
  · unfold compileOneSpec
    rw [if_pos hip]
    simp [fsWrite, hp1, hp2]
  · unfold compileOneSpec
    rw [if_neg hip]
    exact fsWrite_other _ _ _ _ hp1

theorem compileParsers_eq (buildLib root : List String) (inplace : Bool)
    (gen : GrammarSpec → String) (fs : Fs) :
    compileParsers buildLib root inplace gen fs =
      compileOneSpec buildLib root inplace gen
        (compileOneSpec buildLib root inplace gen
          (compileOneSpec buildLib root inplace gen (fs, [])
            ⟨"edb.edgeql.parser.grammar.single", ["edb", "edgeql", "parser", "grammar"]⟩)
          ⟨"edb.edgeql.parser.grammar.block", ["edb", "edgeql", "parser", "grammar"]⟩)
        ⟨"edb.edgeql.parser.grammar.sdldocument",
          ["edb", "edgeql", "parser", "grammar"]⟩ := rfl

/-- C6: `_compile_parsers` writes exactly one cache artifact per declared
grammar spec, in declaration order, at the cache path mirroring the
spec's source-relative directory and named after the spec's module name;
and in inplace mode each artifact is also present at the matching
source-tree path with identical content. -/
theorem grammar_one_artifact_per_spec (buildLib root : List String)
    (inplace : Bool) (gen : GrammarSpec → String) (fs : Fs) :
    ((compileParsers buildLib root inplace gen fs).2.filterMap
        (fun ev => match ev with
          | ParserEvent.writePickle p => some p
          | _ => none) =
      grammarSpecs.map (cachePath buildLib)) ∧
    (∀ spec ∈ grammarSpecs,
      (compileParsers buildLib root inplace gen fs).1 (cachePath buildLib spec) =
        some (gen spec) ∧
      (inplace = true →
        (compileParsers buildLib root inplace gen fs).1 (sourceTreePath root spec) =
          some (gen spec))) := by
  constructor
  · cases inplace <;>
      simp [compileParsers_eq, compileOneSpec, grammarSpecs, List.filterMap]
  · intro spec hspec
    have hs : spec =
        ⟨"edb.edgeql.parser.grammar.single", ["edb", "edgeql", "parser", "grammar"]⟩ ∨
        spec =
        ⟨"edb.edgeql.parser.grammar.block", ["edb", "edgeql", "parser", "grammar"]⟩ ∨
        spec =
        ⟨"edb.edgeql.parser.grammar.sdldocument",
          ["edb", "edgeql", "parser", "grammar"]⟩ := by
      simpa [grammarSpecs] using hspec
    rcases hs with rfl | rfl | rfl
    · refine ⟨?_, fun hip => ?_⟩
      · rw [compileParsers_eq,
          compileOneSpec_other _ _ _ _ _ _
            (cachePath_ne_cachePath (by decide))
            (cachePath_ne_sourceTreePath (by decide)),
          compileOneSpec_other _ _ _ _ _ _
            (cachePath_ne_cachePath (by decide))
            (cachePath_ne_sourceTreePath (by decide))]
        exact (compileOneSpec_self _ _ _ _ _ _).1
      · rw [compileParsers_eq,
          compileOneSpec_other _ _ _ _ _ _
            (sourceTreePath_ne_cachePath (by decide))
            (sourceTreePath_ne_sourceTreePath (by decide)),
          compileOneSpec_other _ _ _ _ _ _
            (sourceTreePath_ne_cachePath (by decide))
            (sourceTreePath_ne_sourceTreePath (by decide))]
        exact (compileOneSpec_self _ _ _ _ _ _).2 hip
    · refine ⟨?_, fun hip => ?_⟩
      · rw [compileParsers_eq,
          compileOneSpec_other _ _ _ _ _ _
            (cachePath_ne_cachePath (by decide))
            (cachePath_ne_sourceTreePath (by decide))]
        exact (compileOneSpec_self _ _ _ _ _ _).1
      · rw [compileParsers_eq,
          compileOneSpec_other _ _ _ _ _ _
            (sourceTreePath_ne_cachePath (by decide))
            (sourceTreePath_ne_sourceTreePath (by decide))]
        exact (compileOneSpec_self _ _ _ _ _ _).2 hip
    · refine ⟨?_, fun hip => ?_⟩
      · rw [compileParsers_eq]
        exact (compileOneSpec_self _ _ _ _ _ _).1
      · rw [compileParsers_eq]
        exact (compileOneSpec_self _ _ _ _ _ _).2 hip

theorem grammar_one_artifact_per_spec_witness :
    (compileParsers ["build", "lib"] ["srcroot"] true (fun _ => "TABLES")
        (fun _ => none)).1
      (sourceTreePath ["srcroot"]
        ⟨"edb.edgeql.parser.grammar.single", ["edb", "edgeql", "parser", "grammar"]⟩) =
      some "TABLES" :=
  ((grammar_one_artifact_per_spec ["build", "lib"] ["srcroot"] true
      (fun _ => "TABLES") (fun _ => none)).2
    ⟨"edb.edgeql.parser.grammar.single", ["edb", "edgeql", "parser", "grammar"]⟩
    (by decide)).2 rfl
